import Mathlib

/-!
Shallow embedding of the timezone-comparison web app's core arithmetic and
interaction logic (src/app/lib/timezone-data.ts, src/app/components/Sidebar.tsx,
src/app/components/TimezoneComparison.tsx, src/app/routes/home.tsx).
JavaScript numbers are modelled as rationals; where division by zero matters the
value domain is extended with NaN and signed infinities (`JSNum`).
-/

namespace TimeCompare

/-- Truncation toward zero, as used by the JavaScript `%` remainder. -/
def jsTrunc (q : ℚ) : ℤ := if q < 0 then -⌊-q⌋ else ⌊q⌋

/-- JavaScript remainder `a % b`: `a - b * trunc(a / b)` (sign follows `a`). -/
def jsRem (a b : ℚ) : ℚ := a - b * (jsTrunc (a / b) : ℚ)

/-- JavaScript `Math.round`: round half toward positive infinity. -/
def jsRound (q : ℚ) : ℤ := ⌊q + 1/2⌋

/-- Mathematical modulus by 24, the normal form both remainder idioms reduce to. -/
def rmod (x : ℚ) : ℚ := x - 24 * (⌊x / 24⌋ : ℚ)

theorem rmod_nonneg (x : ℚ) : 0 ≤ rmod x := by
  have h := Int.floor_le (x / 24)
  have h24 : (0:ℚ) < 24 := by norm_num
  unfold rmod
  nlinarith [h]

theorem rmod_lt (x : ℚ) : rmod x < 24 := by
  have h := Int.lt_floor_add_one (x / 24)
  unfold rmod
  nlinarith [h]

theorem rmod_sub_int_mul (x : ℚ) (k : ℤ) : rmod (x - 24 * k) = rmod x := by
  unfold rmod
  have hfloor : ⌊(x - 24 * k) / 24⌋ = ⌊x / 24⌋ - k := by
    have : (x - 24 * (k:ℚ)) / 24 = x / 24 - (k:ℚ) := by ring
    rw [this, Int.floor_sub_int]
  rw [hfloor]
  push_cast
  ring

theorem rmod_eq_self {x : ℚ} (h0 : 0 ≤ x) (h24 : x < 24) : rmod x = x := by
  have hlt : x / 24 < 1 := by linarith
  have hge : (0:ℚ) ≤ x / 24 := by positivity
  have hfloor : ⌊x / 24⌋ = 0 := Int.floor_eq_zero_iff.mpr ⟨hge, hlt⟩
  unfold rmod
  rw [hfloor]
  push_cast
  ring

theorem jsRem_eq_rmod_of_nonneg {x : ℚ} (hx : 0 ≤ x) : jsRem x 24 = rmod x := by
  unfold jsRem jsTrunc rmod
  have h : ¬ (x / 24 < 0) := not_lt.mpr (by positivity)
  simp [h]

/-- The double-remainder normalization `((x % 24) + 24) % 24` equals `rmod x`
for every rational `x`. -/
theorem double_rem_eq_rmod (x : ℚ) : jsRem (jsRem x 24 + 24) 24 = rmod x := by
  by_cases hx : x / 24 < 0
  · have hrem : jsRem x 24 = x - 24 * (-⌊-(x/24)⌋ : ℤ) := by
      unfold jsRem jsTrunc
      simp [hx]
    have hceil : (-⌊-(x/24)⌋ : ℤ) = ⌈x / 24⌉ := by
      rw [Int.floor_neg]
      simp
    have hlow : x - 24 * ((⌈x / 24⌉ : ℤ) : ℚ) + 24 > 0 := by
      have h := Int.ceil_lt_add_one (x / 24)
      nlinarith [h]
    have hnn : 0 ≤ jsRem x 24 + 24 := by
      rw [hrem, hceil]
      linarith
    rw [jsRem_eq_rmod_of_nonneg hnn, hrem, hceil]
    have : x - 24 * ((⌈x / 24⌉ : ℤ) : ℚ) + 24 = x - 24 * ((⌈x / 24⌉ - 1 : ℤ) : ℚ) := by
      push_cast
      ring
    rw [this, rmod_sub_int_mul]
  · push_neg at hx
    have hrem : jsRem x 24 = rmod x := by
      unfold jsRem jsTrunc rmod
      simp [not_lt.mpr hx]
    have hnn : 0 ≤ jsRem x 24 + 24 := by
      rw [hrem]
      linarith [rmod_nonneg x]
    rw [jsRem_eq_rmod_of_nonneg hnn, hrem]
    have heq : rmod x + 24 = rmod x - 24 * ((-1 : ℤ) : ℚ) := by
      push_cast
      ring
    rw [heq, rmod_sub_int_mul]
    exact rmod_eq_self (rmod_nonneg x) (rmod_lt x)

/-- Timezone descriptor from src/app/lib/timezone-data.ts. -/
structure TimezoneInfo where
  id : String
  name : String
  city : String
  offset : ℚ
  abbreviation : String
deriving DecidableEq, Inhabited

/-- The static registry TIMEZONE_LIST from src/app/lib/timezone-data.ts. -/
def TIMEZONE_LIST : List TimezoneInfo := [
  ⟨"utc", "UTC", "UTC", 0, "UTC"⟩,
  ⟨"pst", "America/Los_Angeles", "Los Angeles", -8, "PST"⟩,
  ⟨"mst", "America/Denver", "Denver", -7, "MST"⟩,
  ⟨"cst", "America/Chicago", "Chicago", -6, "CST"⟩,
  ⟨"est", "America/New_York", "New York", -5, "EST"⟩,
  ⟨"gmt", "Europe/London", "London", 0, "GMT"⟩,
  ⟨"cet", "Europe/Paris", "Paris", 1, "CET"⟩,
  ⟨"eet", "Europe/Helsinki", "Helsinki", 2, "EET"⟩,
  ⟨"msk", "Europe/Moscow", "Moscow", 3, "MSK"⟩,
  ⟨"ist", "Asia/Kolkata", "Mumbai", 11/2, "IST"⟩,
  ⟨"bdt", "Asia/Dhaka", "Dhaka", 6, "BDT"⟩,
  ⟨"ict", "Asia/Bangkok", "Bangkok", 7, "ICT"⟩,
  ⟨"vn", "Asia/Ho_Chi_Minh", "Ha Noi", 7, "ICT"⟩,
  ⟨"cst_china", "Asia/Shanghai", "Shanghai", 8, "CST"⟩,
  ⟨"hkt", "Asia/Hong_Kong", "Hong Kong", 8, "HKT"⟩,
  ⟨"sgt", "Asia/Singapore", "Singapore", 8, "SGT"⟩,
  ⟨"jst", "Asia/Tokyo", "Tokyo", 9, "JST"⟩,
  ⟨"kst", "Asia/Seoul", "Seoul", 9, "KST"⟩,
  ⟨"aest", "Australia/Sydney", "Sydney", 11, "AEDT"⟩,
  ⟨"nzst", "Pacific/Auckland", "Auckland", 13, "NZDT"⟩]

/-- getHourInTimezone from src/app/lib/timezone-data.ts:
`(utcHour + offset + 24) % 24` with the JavaScript remainder. -/
def getHourInTimezone (utcHour offset : ℚ) : ℚ :=
  jsRem (utcHour + offset + 24) 24

/-- String.padStart(2, "0") as applied to the minutes string. -/
def padStart2 (s : String) : String :=
  if s.length ≥ 2 then s else if s.length = 1 then "0" ++ s else "00"

/-- formatTime from src/app/lib/timezone-data.ts: hour part by floor, minutes by
`Math.round((hour - h) * 60)` zero-padded, 12-hour wrap, AM/PM by `h >= 12`. -/
def formatTime (hour : ℚ) : String :=
  let h : ℤ := ⌊hour⌋
  let m : ℤ := jsRound ((hour - (h:ℚ)) * 60)
  let suffix := if h ≥ 12 then "PM" else "AM"
  let displayHour : ℤ := if h = 0 then 12 else if h > 12 then h - 12 else h
  toString displayHour ++ ":" ++ padStart2 (toString m) ++ " " ++ suffix

/-- getHourInTimezone from src/app/components/Sidebar.tsx: falls back to the
selected hour when no first timezone exists, otherwise normalizes
`selectedHour + (tz.offset - firstTimezone.offset) + 24` by the JS remainder. -/
def sbGetHourInTimezone (firstTimezone : Option TimezoneInfo)
    (selectedHour : ℚ) (tz : TimezoneInfo) : ℚ :=
  match firstTimezone with
  | none => selectedHour
  | some first => jsRem (selectedHour + (tz.offset - first.offset) + 24) 24

/-- getHourInTimezone from src/app/components/TimezoneComparison.tsx: same
shape as the sidebar copy, applied to an arbitrary hour in the first timezone. -/
def tzcGetHourInTimezone (firstTimezone : Option TimezoneInfo)
    (firstTzHour : ℚ) (tz : TimezoneInfo) : ℚ :=
  match firstTimezone with
  | none => firstTzHour
  | some first => jsRem (firstTzHour + (tz.offset - first.offset) + 24) 24

/-- availableTimezones from src/app/components/Sidebar.tsx: registry entries
whose id is not already selected. -/
def availableTimezones (selectedTimezones : List TimezoneInfo) : List TimezoneInfo :=
  TIMEZONE_LIST.filter (fun tz => !(selectedTimezones.any (fun selected => selected.id == tz.id)))

/-- handleAddTimezone from src/app/routes/home.tsx: unconditional append. -/
def handleAddTimezone (prev : List TimezoneInfo) (timezone : TimezoneInfo) : List TimezoneInfo :=
  prev ++ [timezone]

/-- handleRemoveTimezone from src/app/routes/home.tsx: filter by id. -/
def handleRemoveTimezone (prev : List TimezoneInfo) (id : String) : List TimezoneInfo :=
  prev.filter (fun tz => !(tz.id == id))

/-- Day-period band from src/app/components/TimezoneComparison.tsx. -/
structure TimeGroup where
  name : String
  startHour : ℚ
  endHour : ℚ
  labelColor : String
  blockColor : String
deriving DecidableEq, Inhabited

/-- TIME_GROUPS from src/app/components/TimezoneComparison.tsx. -/
def TIME_GROUPS : List TimeGroup := [
  ⟨"Late Night", 0, 6, "bg-slate-800 text-slate-200", "bg-slate-700 dark:bg-slate-900"⟩,
  ⟨"Morning", 6, 12, "bg-amber-400/80 text-amber-900", "bg-amber-200 dark:bg-amber-500/50"⟩,
  ⟨"Afternoon", 12, 18, "bg-orange-400/80 text-orange-900", "bg-orange-200 dark:bg-orange-500/50"⟩,
  ⟨"Night", 18, 24, "bg-indigo-700/80 text-indigo-100", "bg-indigo-200 dark:bg-indigo-500/50"⟩]

/-- getTimeGroupForHour from src/app/components/TimezoneComparison.tsx:
normalize by `((hour % 24) + 24) % 24`, then take the first group whose
half-open interval contains the normalized hour, falling back to
`TIME_GROUPS[0]` when none matches. -/
def getTimeGroupForHour (hour : ℚ) : TimeGroup :=
  let normalizedHour := jsRem (jsRem hour 24 + 24) 24
  (TIME_GROUPS.find? (fun group =>
    decide (normalizedHour ≥ group.startHour) && decide (normalizedHour < group.endHour))).getD
    (TIME_GROUPS.getD 0 default)

/-- JavaScript number value as produced by the timeline coordinate math:
a finite rational, a signed infinity, or NaN. -/
inductive JSNum where
  | fin (q : ℚ)
  | posInf
  | negInf
  | nan
deriving DecidableEq

/-- JavaScript division of finite numbers: IEEE semantics for a zero divisor. -/
def jsDiv (a b : ℚ) : JSNum :=
  if b = 0 then (if a = 0 then .nan else if a > 0 then .posInf else .negInf)
  else .fin (a / b)

/-- JavaScript Math.min with a finite first argument: NaN propagates. -/
def jsMin (a : ℚ) : JSNum → JSNum
  | .nan => .nan
  | .posInf => .fin a
  | .negInf => .negInf
  | .fin q => .fin (min a q)

/-- JavaScript Math.max with a finite first argument: NaN propagates. -/
def jsMax (a : ℚ) : JSNum → JSNum
  | .nan => .nan
  | .posInf => .posInf
  | .negInf => .fin a
  | .fin q => .fin (max a q)

/-- JavaScript multiplication by a finite constant. -/
def jsMulConst (v : JSNum) (c : ℚ) : JSNum :=
  match v with
  | .nan => .nan
  | .posInf => if c > 0 then .posInf else if c < 0 then .negInf else .nan
  | .negInf => if c > 0 then .negInf else if c < 0 then .posInf else .nan
  | .fin q => .fin (q * c)

/-- Horizontal bounds of the timeline element (getBoundingClientRect). -/
structure Rect where
  left : ℚ
  width : ℚ
deriving DecidableEq

/-- calculateHourFromPosition from src/app/components/TimezoneComparison.tsx:
returns the current selected hour when the timeline ref is null, otherwise
`Math.max(0, Math.min(1, (clientX - rect.left) / rect.width)) * 24`. -/
def calculateHourFromPosition (timeline : Option Rect) (selectedHour : JSNum)
    (clientX : ℚ) : JSNum :=
  match timeline with
  | none => selectedHour
  | some rect =>
    let x := clientX - rect.left
    let percentage := jsMax 0 (jsMin 1 (jsDiv x rect.width))
    jsMulConst percentage 24

/-- Interaction state of the timeline: the `isDragging` flag and the selected
hour held by the page (src/app/components/TimezoneComparison.tsx together with
src/app/routes/home.tsx's `selectedHour` state). -/
structure DragState where
  isDragging : Bool
  selectedHour : JSNum
deriving DecidableEq

/-- Pointer and touch events handled by the timeline, each carrying the
horizontal client coordinate where applicable. -/
inductive TLEvent where
  | mouseDown (clientX : ℚ)
  | mouseMove (clientX : ℚ)
  | mouseUp
  | touchStart (clientX : ℚ)
  | touchMove (clientX : ℚ)
  | touchEnd
deriving DecidableEq

/-- One step of the timeline interaction: handleMouseDown, handleMouseMove,
handleMouseUp, handleTouchStart, handleTouchMove from
src/app/components/TimezoneComparison.tsx (touchend is wired to handleMouseUp).
Down events set the dragging flag and emit the hour at the event coordinate;
move events do so only while dragging; release clears the flag. -/
def handleTimelineEvent (timeline : Option Rect) (s : DragState) : TLEvent → DragState
  | .mouseDown x => ⟨true, calculateHourFromPosition timeline s.selectedHour x⟩
  | .touchStart x => ⟨true, calculateHourFromPosition timeline s.selectedHour x⟩
  | .mouseMove x =>
    if s.isDragging then { s with selectedHour := calculateHourFromPosition timeline s.selectedHour x } else s
  | .touchMove x =>
    if s.isDragging then { s with selectedHour := calculateHourFromPosition timeline s.selectedHour x } else s
  | .mouseUp => { s with isDragging := false }
  | .touchEnd => { s with isDragging := false }

/-- JavaScript Array.prototype.splice start-index normalization: negative
indices count from the end (clamped at 0), others are clamped to the length. -/
def jsSpliceStart (len : ℕ) (start : ℤ) : ℕ :=
  if start < 0 then ((len : ℤ) + start).toNat else min start.toNat len

/-- handleReorderTimezones from src/app/routes/home.tsx:
`const [moved] = newList.splice(fromIndex, 1); newList.splice(toIndex, 0, moved)`.
Elements are modelled as `Option` values because destructuring the result of a
splice that removed nothing yields `undefined` (`none`), which the second
splice then inserts into the array. -/
def handleReorderTimezones {α : Type} (prev : List α) (fromIndex toIndex : ℤ) :
    List (Option α) :=
  let newList : List (Option α) := prev.map some
  let s1 := jsSpliceStart newList.length fromIndex
  let removed := (newList.drop s1).take 1
  let rest := newList.take s1 ++ newList.drop (s1 + 1)
  let moved : Option α := removed.head?.getD none
  let s2 := jsSpliceStart rest.length toIndex
  rest.take s2 ++ moved :: rest.drop s2

theorem code_rem_eq_rmod {d h : ℚ} (h0 : 0 ≤ h) (hd : -24 ≤ d) :
    jsRem (h + d + 24) 24 = rmod (h + d) := by
  have hx : 0 ≤ h + d + 24 := by linarith
  rw [jsRem_eq_rmod_of_nonneg hx]
  have heq : h + d + 24 = (h + d) - 24 * ((-1 : ℤ) : ℚ) := by
    push_cast
    ring
  rw [heq, rmod_sub_int_mul]

/-- C1 (counterexample): with reference offset 25 and target offset 0 the
offset difference is -25, and at reference hour 0 the code returns -1, which is
outside [0, 24) and differs from the spec formula
`((h + (o2 - o1)) mod 24 + 24) mod 24`, whose value there is 23. -/
theorem hour_conversion_range_counterexample :
    tzcGetHourInTimezone (some ⟨"x", "X", "X", 25, "X"⟩) 0 ⟨"u", "U", "U", 0, "U"⟩ = -1 ∧
    jsRem (jsRem (0 + ((0 : ℚ) - 25)) 24 + 24) 24 = 23 := by
  constructor
  · show jsRem (0 + ((0:ℚ) - 25) + 24) 24 = -1
    norm_num [jsRem, jsTrunc]
  · norm_num [jsRem, jsTrunc]

/-- C1 (amended): for every hour h in [0,24) and all offsets whose difference
targetOffset - referenceOffset is at least -24 (which covers fractional offsets
such as +5.5 and extreme pairs such as +13 and -8), the conversion returns a
value in [0, 24) equal to `((h + (o2 - o1)) mod 24 + 24) mod 24`. -/
theorem hour_conversion_range_amended (first tz : TimezoneInfo) (h : ℚ)
    (h0 : 0 ≤ h) (h24 : h < 24) (hoff : -24 ≤ tz.offset - first.offset) :
    0 ≤ tzcGetHourInTimezone (some first) h tz ∧
    tzcGetHourInTimezone (some first) h tz < 24 ∧
    tzcGetHourInTimezone (some first) h tz
      = jsRem (jsRem (h + (tz.offset - first.offset)) 24 + 24) 24 := by
  have hcode : tzcGetHourInTimezone (some first) h tz = rmod (h + (tz.offset - first.offset)) :=
    code_rem_eq_rmod h0 hoff
  rw [hcode, double_rem_eq_rmod]
  exact ⟨rmod_nonneg _, rmod_lt _, rfl⟩

/-- C1 (witness): reference offset +13 and target offset -8 at reference hour
23: the amended theorem applies and the hypotheses hold there. -/
theorem hour_conversion_range_amended_witness :
    0 ≤ tzcGetHourInTimezone (some ⟨"nzst", "Pacific/Auckland", "Auckland", 13, "NZDT"⟩)
        23 ⟨"pst", "America/Los_Angeles", "Los Angeles", -8, "PST"⟩ ∧
    tzcGetHourInTimezone (some ⟨"nzst", "Pacific/Auckland", "Auckland", 13, "NZDT"⟩)
        23 ⟨"pst", "America/Los_Angeles", "Los Angeles", -8, "PST"⟩ < 24 ∧
    tzcGetHourInTimezone (some ⟨"nzst", "Pacific/Auckland", "Auckland", 13, "NZDT"⟩)
        23 ⟨"pst", "America/Los_Angeles", "Los Angeles", -8, "PST"⟩
      = jsRem (jsRem (23 + ((-8 : ℚ) - 13)) 24 + 24) 24 :=
  hour_conversion_range_amended _ _ 23 (by norm_num) (by norm_num) (by norm_num)

/-- C5: when the reference and target offsets are equal, the conversion is the
identity on every hour in [0, 24). -/
theorem hour_conversion_identity (first tz : TimezoneInfo) (h : ℚ)
    (hoff : tz.offset = first.offset) (h0 : 0 ≤ h) (h24 : h < 24) :
    tzcGetHourInTimezone (some first) h tz = h := by
  have hcode : tzcGetHourInTimezone (some first) h tz = rmod (h + (tz.offset - first.offset)) :=
    code_rem_eq_rmod h0 (by rw [hoff]; norm_num)
  rw [hcode, hoff, sub_self, add_zero, rmod_eq_self h0 h24]

/-- C5 (witness): the identity at hour 15/2 with both offsets +7. -/
theorem hour_conversion_identity_witness :
    tzcGetHourInTimezone (some ⟨"vn", "Asia/Ho_Chi_Minh", "Ha Noi", 7, "ICT"⟩)
        (15/2) ⟨"ict", "Asia/Bangkok", "Bangkok", 7, "ICT"⟩ = 15/2 :=
  hour_conversion_identity _ _ (15/2) rfl (by norm_num) (by norm_num)

/-- C10: the library copy of the hour conversion applied to the offset
difference, the Sidebar copy, and the TimezoneComparison copy compute the same
value for every hour and every pair of reference/target descriptors. -/
theorem hour_conversion_copies_agree (first tz : TimezoneInfo) (h : ℚ) :
    sbGetHourInTimezone (some first) h tz = getHourInTimezone h (tz.offset - first.offset) ∧
    tzcGetHourInTimezone (some first) h tz = getHourInTimezone h (tz.offset - first.offset) := by
  exact ⟨rfl, rfl⟩

/-- C2: every hour in [0,24) is assigned exactly one of the four day-period
bands [0,6), [6,12), [12,18), [18,24) (half-open intervals), and the boundary
values 6, 12 and 18 map to the later band (the one that starts there): the
[6,12) band named "Morning", the [12,18) band named "Afternoon", and the
[18,24) band (the spec's Evening, which the code labels "Night"). -/
theorem classify_day_period_partition (h : ℚ) (h0 : 0 ≤ h) (h24 : h < 24) :
    getTimeGroupForHour h ∈ TIME_GROUPS ∧
    (getTimeGroupForHour h).startHour ≤ h ∧
    h < (getTimeGroupForHour h).endHour ∧
    (∀ g ∈ TIME_GROUPS, g.startHour ≤ h → h < g.endHour → g = getTimeGroupForHour h) ∧
    (getTimeGroupForHour 6).name = "Morning" ∧
    (getTimeGroupForHour 12).name = "Afternoon" ∧
    (getTimeGroupForHour 18).startHour = 18 := by
  have hval : ∀ x : ℚ, 0 ≤ x → x < 24 → getTimeGroupForHour x
      = (TIME_GROUPS.find? (fun group =>
          decide (x ≥ group.startHour) && decide (x < group.endHour))).getD
        (TIME_GROUPS.getD 0 default) := by
    intro x hx0 hx24
    have hnorm : jsRem (jsRem x 24 + 24) 24 = x := by
      rw [double_rem_eq_rmod, rmod_eq_self hx0 hx24]
    unfold getTimeGroupForHour
    rw [hnorm]
  have hb6 : (getTimeGroupForHour 6).name = "Morning" := by
    rw [hval 6 (by norm_num) (by norm_num)]
    norm_num [TIME_GROUPS, List.find?]
  have hb12 : (getTimeGroupForHour 12).name = "Afternoon" := by
    rw [hval 12 (by norm_num) (by norm_num)]
    norm_num [TIME_GROUPS, List.find?]
  have hb18 : (getTimeGroupForHour 18).startHour = 18 := by
    rw [hval 18 (by norm_num) (by norm_num)]
    norm_num [TIME_GROUPS, List.find?]
  rcases lt_or_le h 6 with h6 | h6
  · have hfind : getTimeGroupForHour h
        = ⟨"Late Night", 0, 6, "bg-slate-800 text-slate-200", "bg-slate-700 dark:bg-slate-900"⟩ := by
      rw [hval h h0 h24]
      simp [TIME_GROUPS, List.find?, h0, h6]
    rw [hfind]
    refine ⟨by simp [TIME_GROUPS], by simpa using h0, by simpa using h6, ?_, hb6, hb12, hb18⟩
    intro g hg hgs hge
    simp only [TIME_GROUPS, List.mem_cons, List.not_mem_nil, or_false] at hg
    rcases hg with rfl | rfl | rfl | rfl
    · rfl
    · exfalso; simp only at hgs; linarith
    · exfalso; simp only at hgs; linarith
    · exfalso; simp only at hgs; linarith
  · rcases lt_or_le h 12 with h12 | h12
    · have hfind : getTimeGroupForHour h
          = ⟨"Morning", 6, 12, "bg-amber-400/80 text-amber-900", "bg-amber-200 dark:bg-amber-500/50"⟩ := by
        rw [hval h h0 h24]
        simp [TIME_GROUPS, List.find?, h0, h6, h12, not_lt.mpr h6]
      rw [hfind]
      refine ⟨by simp [TIME_GROUPS], by simpa using h6, by simpa using h12, ?_, hb6, hb12, hb18⟩
      intro g hg hgs hge
      simp only [TIME_GROUPS, List.mem_cons, List.not_mem_nil, or_false] at hg
      rcases hg with rfl | rfl | rfl | rfl
      · exfalso; simp only at hge; linarith
      · rfl
      · exfalso; simp only at hgs; linarith
      · exfalso; simp only at hgs; linarith
    · rcases lt_or_le h 18 with h18 | h18
      · have hfind : getTimeGroupForHour h
            = ⟨"Afternoon", 12, 18, "bg-orange-400/80 text-orange-900", "bg-orange-200 dark:bg-orange-500/50"⟩ := by
          rw [hval h h0 h24]
          simp [TIME_GROUPS, List.find?, h0, h6, h12, h18, not_lt.mpr h6, not_lt.mpr h12]
        rw [hfind]
        refine ⟨by simp [TIME_GROUPS], by simpa using h12, by simpa using h18, ?_, hb6, hb12, hb18⟩
        intro g hg hgs hge
        simp only [TIME_GROUPS, List.mem_cons, List.not_mem_nil, or_false] at hg
        rcases hg with rfl | rfl | rfl | rfl
        · exfalso; simp only at hge; linarith
        · exfalso; simp only at hge; linarith
        · rfl
        · exfalso; simp only at hgs; linarith
      · have hfind : getTimeGroupForHour h
            = ⟨"Night", 18, 24, "bg-indigo-700/80 text-indigo-100", "bg-indigo-200 dark:bg-indigo-500/50"⟩ := by
          rw [hval h h0 h24]
          simp [TIME_GROUPS, List.find?, h0, h6, h12, h18, h24, not_lt.mpr h6, not_lt.mpr h12,
            not_lt.mpr h18]
        rw [hfind]
        refine ⟨by simp [TIME_GROUPS], by simpa using h18, by simpa using h24, ?_, hb6, hb12, hb18⟩
        intro g hg hgs hge
        simp only [TIME_GROUPS, List.mem_cons, List.not_mem_nil, or_false] at hg
        rcases hg with rfl | rfl | rfl | rfl
        · exfalso; simp only at hge; linarith
        · exfalso; simp only at hge; linarith
        · exfalso; simp only at hge; linarith
        · rfl

/-- C2 (witness): hour 27/2 (13:30) lies in [0,24); the partition theorem
applies and places it inside the band returned by the classifier. -/
theorem classify_day_period_partition_witness :
    (getTimeGroupForHour (27/2)).startHour ≤ 27/2 ∧
    (27/2 : ℚ) < (getTimeGroupForHour (27/2)).endHour ∧
    (getTimeGroupForHour 12).name = "Afternoon" := by
  have H := classify_day_period_partition (27/2) (by norm_num) (by norm_num)
  exact ⟨H.2.1, H.2.2.1, H.2.2.2.2.2.1⟩

/-- C3: the basic format is as claimed (formatTime 0 = "12:00 AM",
formatTime 13.5 = "1:30 PM"), but the required minute-rollover is missing:
at hour 23.995 minute rounding yields 60 and the code prints "11:60 PM"
instead of carrying into the next hour across the day boundary. -/
theorem format_time_no_minute_carry :
    formatTime 0 = "12:00 AM" ∧
    formatTime (27/2) = "1:30 PM" ∧
    formatTime (4799/200) = "11:60 PM" := by
  refine ⟨?_, ?_, ?_⟩
  · unfold formatTime jsRound
    norm_num [padStart2]
    rfl
  · unfold formatTime jsRound
    norm_num [padStart2]
    rfl
  · unfold formatTime jsRound
    norm_num [padStart2]
    rfl

/-- C4: with a laid-out timeline of positive width, the coordinate-to-hour
mapping returns `clamp((x - left) / width, 0, 1) * 24`, a finite value always
within [0, 24] even for coordinates outside the element. -/
theorem coordinate_to_hour_clamped (rect : Rect) (sh : JSNum) (clientX : ℚ)
    (hw : 0 < rect.width) :
    calculateHourFromPosition (some rect) sh clientX
      = JSNum.fin (max 0 (min 1 ((clientX - rect.left) / rect.width)) * 24) ∧
    0 ≤ max 0 (min 1 ((clientX - rect.left) / rect.width)) * 24 ∧
    max 0 (min 1 ((clientX - rect.left) / rect.width)) * 24 ≤ 24 := by
  have hne : rect.width ≠ 0 := ne_of_gt hw
  refine ⟨?_, ?_, ?_⟩
  · show jsMulConst (jsMax 0 (jsMin 1 (jsDiv (clientX - rect.left) rect.width))) 24 = _
    simp [jsDiv, hne, jsMin, jsMax, jsMulConst]
  · have : (0:ℚ) ≤ max 0 (min 1 ((clientX - rect.left) / rect.width)) := le_max_left 0 _
    nlinarith
  · have h1 : min 1 ((clientX - rect.left) / rect.width) ≤ 1 := min_le_left 1 _
    have h2 : max 0 (min 1 ((clientX - rect.left) / rect.width)) ≤ 1 :=
      max_le (by norm_num) h1
    nlinarith

/-- C4 (witness): on a timeline with left = 100 and width = 240, coordinate 100
maps to hour 0, coordinate 220 maps to hour 12, and coordinate 340 maps to
hour 24 (clamped). -/
theorem coordinate_to_hour_clamped_witness :
    calculateHourFromPosition (some ⟨100, 240⟩) (JSNum.fin 5) 100 = JSNum.fin 0 ∧
    calculateHourFromPosition (some ⟨100, 240⟩) (JSNum.fin 5) 220 = JSNum.fin 12 ∧
    calculateHourFromPosition (some ⟨100, 240⟩) (JSNum.fin 5) 340 = JSNum.fin 24 := by
  refine ⟨?_, ?_, ?_⟩
  · have H := coordinate_to_hour_clamped ⟨100, 240⟩ (JSNum.fin 5) 100 (by norm_num)
    rw [H.1]
    norm_num [min_def, max_def]
  · have H := coordinate_to_hour_clamped ⟨100, 240⟩ (JSNum.fin 5) 220 (by norm_num)
    rw [H.1]
    norm_num [min_def, max_def]
  · have H := coordinate_to_hour_clamped ⟨100, 240⟩ (JSNum.fin 5) 340 (by norm_num)
    rw [H.1]
    norm_num [min_def, max_def]

/-- C7: the claimed zero-width fallback does not exist. The code returns the
current reference hour only when the timeline element itself is missing; with
an element of zero width it divides by zero: coordinate left maps to NaN,
coordinates right of left clamp to hour 24, and coordinates left of left clamp
to hour 0 — never to the reference hour 5. -/
theorem zero_width_timeline_nan :
    calculateHourFromPosition (some ⟨100, 0⟩) (JSNum.fin 5) 100 = JSNum.nan ∧
    calculateHourFromPosition (some ⟨100, 0⟩) (JSNum.fin 5) 150 = JSNum.fin 24 ∧
    calculateHourFromPosition (some ⟨100, 0⟩) (JSNum.fin 5) 50 = JSNum.fin 0 ∧
    calculateHourFromPosition none (JSNum.fin 5) 100 = JSNum.fin 5 := by
  refine ⟨?_, ?_, ?_, rfl⟩ <;>
    norm_num [calculateHourFromPosition, jsDiv, jsMin, jsMax, jsMulConst, min_def, max_def]

/-- C6: pointer-down and touch-start immediately compute the hour at the event
coordinate and emit it while entering the dragging state; while dragging, each
move event emits the hour computed from a present timeline and that event's
coordinate alone (independent of the stored hour, hence no smoothing); while
idle, move events leave the state unchanged. -/
theorem timeline_drag_state_machine (tl : Option Rect) (r : Rect) (s : DragState) (x : ℚ) :
    handleTimelineEvent tl s (.mouseDown x)
      = ⟨true, calculateHourFromPosition tl s.selectedHour x⟩ ∧
    handleTimelineEvent tl s (.touchStart x)
      = ⟨true, calculateHourFromPosition tl s.selectedHour x⟩ ∧
    (s.isDragging = true →
      handleTimelineEvent tl s (.mouseMove x)
        = ⟨true, calculateHourFromPosition tl s.selectedHour x⟩) ∧
    (s.isDragging = true →
      handleTimelineEvent tl s (.touchMove x)
        = ⟨true, calculateHourFromPosition tl s.selectedHour x⟩) ∧
    (∀ h h' : JSNum,
      calculateHourFromPosition (some r) h x = calculateHourFromPosition (some r) h' x) ∧
    (s.isDragging = false → handleTimelineEvent tl s (.mouseMove x) = s) ∧
    (s.isDragging = false → handleTimelineEvent tl s (.touchMove x) = s) := by
  refine ⟨rfl, rfl, ?_, ?_, fun h h' => rfl, ?_, ?_⟩ <;>
    · intro hd
      simp [handleTimelineEvent, hd]

/-- C6 (witness): concrete runs of the state machine on a 240-wide timeline:
a pointer-down from the idle state jumps to the clicked hour and starts
dragging, and a move while idle changes nothing. -/
theorem timeline_drag_state_machine_witness :
    handleTimelineEvent (some ⟨0, 240⟩) ⟨false, JSNum.fin 5⟩ (.mouseDown 120)
      = ⟨true, calculateHourFromPosition (some ⟨0, 240⟩) (JSNum.fin 5) 120⟩ ∧
    handleTimelineEvent (some ⟨0, 240⟩) ⟨false, JSNum.fin 5⟩ (.mouseMove 120)
      = ⟨false, JSNum.fin 5⟩ := by
  have H := timeline_drag_state_machine (some ⟨0, 240⟩) ⟨0, 240⟩ ⟨false, JSNum.fin 5⟩ 120
  exact ⟨H.1, H.2.2.2.2.2.1 rfl⟩

/-- C8: the valid-index examples hold (reorder(0,2) on [A,B,C] gives [B,C,A]
and reorder(2,0) gives [C,A,B]), but an out-of-range fromIndex corrupts the
sequence: reorder(3,0) on [A,B,C] removes nothing and then inserts the
`undefined` produced by destructuring the empty splice result, yielding a
4-element list led by a non-entry. -/
theorem reorder_out_of_range_corrupts :
    handleReorderTimezones ([0, 1, 2] : List ℕ) 0 2 = [some 1, some 2, some 0] ∧
    handleReorderTimezones ([0, 1, 2] : List ℕ) 2 0 = [some 2, some 0, some 1] ∧
    handleReorderTimezones ([0, 1, 2] : List ℕ) 3 0 = [none, some 0, some 1, some 2] := by
  exact ⟨rfl, rfl, rfl⟩

/-- C9 (counterexample): the add handler appends unconditionally, so adding a
descriptor whose identifier is already selected duplicates it: the resulting
identifier list ["utc", "utc"] is not duplicate-free. -/
theorem add_duplicate_counterexample :
    handleAddTimezone [⟨"utc", "UTC", "UTC", 0, "UTC"⟩] ⟨"utc", "UTC", "UTC", 0, "UTC"⟩
      = [⟨"utc", "UTC", "UTC", 0, "UTC"⟩, ⟨"utc", "UTC", "UTC", 0, "UTC"⟩] ∧
    ¬ (List.map TimezoneInfo.id
        (handleAddTimezone [⟨"utc", "UTC", "UTC", 0, "UTC"⟩] ⟨"utc", "UTC", "UTC", 0, "UTC"⟩)).Nodup := by
  refine ⟨rfl, ?_⟩
  simp [handleAddTimezone]

/-- C9 (amended): duplicate identifiers are prevented upstream rather than in
the add handler: every descriptor the sidebar offers for adding has an
identifier absent from the current selection, so an add initiated there
preserves the no-duplicate invariant; removing an absent identifier is a
no-op that leaves the list unchanged. -/
theorem selection_no_duplicates_amended (selected l : List TimezoneInfo)
    (tz : TimezoneInfo) (id : String) :
    (tz ∈ availableTimezones selected →
      (∀ s ∈ selected, s.id ≠ tz.id) ∧
      ((selected.map TimezoneInfo.id).Nodup →
        ((handleAddTimezone selected tz).map TimezoneInfo.id).Nodup)) ∧
    ((∀ s ∈ l, s.id ≠ id) → handleRemoveTimezone l id = l) := by
  constructor
  · intro hmem
    have hpred := List.of_mem_filter hmem
    have hnotin : ∀ s ∈ selected, s.id ≠ tz.id := by
      intro s hs
      simp only [Bool.not_eq_eq_eq_not, Bool.not_true, List.any_eq_false, beq_eq_false_iff_ne,
        ne_eq] at hpred
      exact fun heq => hpred s hs (by simp [heq])
    refine ⟨hnotin, ?_⟩
    intro hnd
    unfold handleAddTimezone
    rw [List.map_append]
    rw [List.nodup_append]
    refine ⟨hnd, List.nodup_singleton _, ?_⟩
    intro a ha hb
    simp only [List.map_cons, List.map_nil, List.mem_singleton] at hb
    rcases List.mem_map.mp ha with ⟨s, hs, rfl⟩
    exact hnotin s hs hb
  · intro habs
    unfold handleRemoveTimezone
    apply List.filter_eq_self.mpr
    intro a ha
    simp only [Bool.not_eq_eq_eq_not, Bool.not_true, beq_eq_false_iff_ne, ne_eq]
    exact habs a ha

/-- C9 (witness): with an empty selection the registry head "utc" is offered by
the sidebar and its identifier is absent; removing the absent identifier "pst"
from a one-element list leaves it unchanged. -/
theorem selection_no_duplicates_amended_witness :
    (∀ s ∈ ([] : List TimezoneInfo), s.id ≠ (⟨"utc", "UTC", "UTC", 0, "UTC"⟩ : TimezoneInfo).id) ∧
    handleRemoveTimezone [⟨"utc", "UTC", "UTC", 0, "UTC"⟩] "pst"
      = [⟨"utc", "UTC", "UTC", 0, "UTC"⟩] := by
  have H := selection_no_duplicates_amended [] [⟨"utc", "UTC", "UTC", 0, "UTC"⟩]
    ⟨"utc", "UTC", "UTC", 0, "UTC"⟩ "pst"
  refine ⟨?_, ?_⟩
  · exact (H.1 (by simp [availableTimezones, TIMEZONE_LIST])).1
  · exact H.2 (by simp)

end TimeCompare
